import Mathlib

/-!
Verification of the Jurisol legal-assistant service against its
natural-language specification.  The definitions below are a shallow
embedding of the Python sources (`app.py` and the tools under `tools/`):
pure helpers become Lean functions, the in-memory dictionaries become
association lists, clock readings and network backends become explicit
parameters.  Theorems about the embedding settle the specification claims.
-/

/-! ## Messages (the dicts stored in `sessions`, `app.py`)

A conversation message is a dict with `role` and `content` keys and an
optional `timestamp` key (`msg.get("timestamp", 0)` is used by
`list_sessions`; the key is absent on messages written by the chat flow,
hence the `Option`). -/

structure Msg where
  role : String
  content : String
  timestamp : Option Nat := none
deriving Repr, DecidableEq

/-! ## Conversation trimming (`app.py`, `estimate_tokens` / `trim_conversation`) -/

/-- `estimate_tokens` from `app.py`: `len(text) // 4`. -/
def estimate_tokens (text : String) : Nat :=
  text.length / 4

/-- The `for msg in reversed(messages[start_idx:])` loop of
`trim_conversation`: walk the (already reversed) tail, accumulating
estimated tokens into `total`, stopping as soon as the running total
exceeds the budget.  Returns the `selected` list, newest message first,
exactly as the Python loop builds it. -/
def selectLoop (budget : Nat) : List Msg → Nat → List Msg
  | [], _ => []
  | m :: ms, total =>
    let t := total + estimate_tokens m.content
    if budget < t then [] else m :: selectLoop budget ms t

/-- `trim_conversation` from `app.py`.  Keeps a leading system message
unconditionally, then keeps the most recent messages whose accumulated
estimated token count stays within `max_tokens` (default 100000). -/
def trim_conversation (messages : List Msg) (max_tokens : Nat := 100000) : List Msg :=
  match messages with
  | [] => []
  | m0 :: rest =>
    if m0.role = "system" then
      m0 :: (selectLoop max_tokens rest.reverse 0).reverse
    else
      (selectLoop max_tokens (m0 :: rest).reverse 0).reverse

/-- Total estimated token count of a message list. -/
def tokenSum (ms : List Msg) : Nat :=
  (ms.map (fun m => estimate_tokens m.content)).sum

/-- Written from the specification text, for comparison with
`trim_conversation`: the maximal suffix of a message list whose
cumulative estimated token count does not exceed the budget. -/
def maxBudgetSuffix (budget : Nat) : List Msg → List Msg
  | [] => []
  | m :: rest =>
    if tokenSum (m :: rest) ≤ budget then m :: rest else maxBudgetSuffix budget rest

/-- Helper for relating `selectLoop` to suffixes: the maximal prefix of a
list whose cumulative estimated token count fits in the budget. -/
def maxBudgetTake (budget : Nat) : List Msg → List Msg
  | [] => []
  | m :: ms =>
    if estimate_tokens m.content ≤ budget then
      m :: maxBudgetTake (budget - estimate_tokens m.content) ms
    else []

theorem tokenSum_nil : tokenSum [] = 0 := rfl

theorem tokenSum_cons (m : Msg) (ms : List Msg) :
    tokenSum (m :: ms) = estimate_tokens m.content + tokenSum ms := by
  simp [tokenSum]

theorem tokenSum_reverse (ms : List Msg) : tokenSum ms.reverse = tokenSum ms := by
  simp [tokenSum, List.sum_reverse]

theorem tokenSum_append (xs ys : List Msg) :
    tokenSum (xs ++ ys) = tokenSum xs + tokenSum ys := by
  simp [tokenSum]

theorem selectLoop_eq_maxBudgetTake (budget : Nat) (ms : List Msg) :
    ∀ total, total ≤ budget →
      selectLoop budget ms total = maxBudgetTake (budget - total) ms := by
  induction ms with
  | nil => intro total _; simp [selectLoop, maxBudgetTake]
  | cons m t ih =>
    intro total htot
    simp only [selectLoop, maxBudgetTake]
    by_cases h : budget < total + estimate_tokens m.content
    · have : ¬ estimate_tokens m.content ≤ budget - total := by omega
      simp [h, this]
    · have h2 : estimate_tokens m.content ≤ budget - total := by omega
      have h3 : total + estimate_tokens m.content ≤ budget := by omega
      have := ih (total + estimate_tokens m.content) h3
      simp [h, h2, this]
      congr 1
      omega

theorem maxBudgetTake_append_singleton (a : Msg) (budget : Nat) (xs : List Msg) :
    maxBudgetTake budget (xs ++ [a]) =
      if tokenSum xs ≤ budget then
        (if tokenSum xs + estimate_tokens a.content ≤ budget then xs ++ [a] else xs)
      else maxBudgetTake budget xs := by
  induction xs generalizing budget with
  | nil =>
    simp only [List.nil_append, maxBudgetTake, tokenSum_nil]
    by_cases h : estimate_tokens a.content ≤ budget
    · simp [h, maxBudgetTake]
    · simp [h]
  | cons m t ih =>
    simp only [List.cons_append, maxBudgetTake, List.append_eq, tokenSum_cons]
    by_cases hm : estimate_tokens m.content ≤ budget
    · simp only [ih]
      split_ifs <;> first | rfl | omega
    · split_ifs <;> first | rfl | omega

theorem maxBudgetTake_reverse_eq (budget : Nat) (l : List Msg) :
    (maxBudgetTake budget l.reverse).reverse = maxBudgetSuffix budget l := by
  induction l generalizing budget with
  | nil => simp [maxBudgetTake, maxBudgetSuffix]
  | cons a t ih =>
    have hrev : (a :: t).reverse = t.reverse ++ [a] := by simp
    rw [hrev, maxBudgetTake_append_singleton, maxBudgetSuffix]
    rw [tokenSum_reverse]
    by_cases ht : tokenSum t ≤ budget
    · by_cases hta : tokenSum t + estimate_tokens a.content ≤ budget
      · have : tokenSum (a :: t) ≤ budget := by rw [tokenSum_cons]; omega
        simp [ht, hta, this]
      · have hcons : ¬ tokenSum (a :: t) ≤ budget := by rw [tokenSum_cons]; omega
        -- the whole list does not fit, but the tail does
        have htail : maxBudgetSuffix budget t = t := by
          cases t with
          | nil => rfl
          | cons b u => simp [maxBudgetSuffix, ht]
        simp [ht, hta, hcons, htail]
    · have hcons : ¬ tokenSum (a :: t) ≤ budget := by rw [tokenSum_cons]; omega
      simp [ht, hcons, ih]

theorem maxBudgetSuffix_of_le (budget : Nat) (l : List Msg) (h : tokenSum l ≤ budget) :
    maxBudgetSuffix budget l = l := by
  cases l with
  | nil => rfl
  | cons m t => simp [maxBudgetSuffix, h]

theorem maxBudgetSuffix_suffix (budget : Nat) (l : List Msg) :
    maxBudgetSuffix budget l <:+ l := by
  induction l with
  | nil => simp [maxBudgetSuffix]
  | cons m t ih =>
    rw [maxBudgetSuffix]
    by_cases h : tokenSum (m :: t) ≤ budget
    · simp [h]
    · simp only [h, if_false]
      exact ih.trans (t.suffix_cons m)

theorem tokenSum_maxBudgetSuffix_le (budget : Nat) (l : List Msg) :
    tokenSum (maxBudgetSuffix budget l) ≤ budget := by
  induction l with
  | nil => simp [maxBudgetSuffix, tokenSum_nil]
  | cons m t ih =>
    rw [maxBudgetSuffix]
    by_cases h : tokenSum (m :: t) ≤ budget
    · simp [h]
    · simpa [h] using ih

theorem maxBudgetSuffix_maximal (budget : Nat) (l : List Msg) :
    ∀ S, S <:+ l → tokenSum S ≤ budget → S <:+ maxBudgetSuffix budget l := by
  induction l with
  | nil =>
    intro S hS _
    simpa [maxBudgetSuffix] using hS
  | cons m t ih =>
    intro S hS hSsum
    rw [maxBudgetSuffix]
    by_cases h : tokenSum (m :: t) ≤ budget
    · simpa [h] using hS
    · simp only [h, if_false]
      rcases List.suffix_cons_iff.1 hS with heq | htail
      · exact absurd (heq ▸ hSsum) h
      · exact ih S htail hSsum

/-- The implementation agrees with the suffix description: on a list with
a leading system message, `trim_conversation` is that message followed by
the maximal budget-respecting suffix of the rest. -/
theorem trim_conversation_eq (m0 : Msg) (rest : List Msg) (budget : Nat) :
    trim_conversation (m0 :: rest) budget =
      if m0.role = "system" then m0 :: maxBudgetSuffix budget rest
      else maxBudgetSuffix budget (m0 :: rest) := by
  have h0 : ∀ l : List Msg,
      (selectLoop budget l.reverse 0).reverse = maxBudgetSuffix budget l := by
    intro l
    rw [selectLoop_eq_maxBudgetTake budget l.reverse 0 (Nat.zero_le _)]
    simpa using maxBudgetTake_reverse_eq budget l
  simp only [trim_conversation]
  by_cases h : m0.role = "system"
  · rw [if_pos h, if_pos h, h0 rest]
  · rw [if_neg h, if_neg h, h0 (m0 :: rest)]

/-- C1: whenever the first message has role "system", `trim_conversation`
returns that message unchanged at position 0 — for every budget, even an
exhausted one — followed by the maximal suffix of the remaining messages,
in original order and unmodified, whose cumulative estimated token count
(characters divided by 4 per message, accumulated from the most recent
message backward) does not exceed the budget. -/
theorem trim_conversation_system_spec (m0 : Msg) (rest : List Msg) (budget : Nat)
    (hsys : m0.role = "system") :
    trim_conversation (m0 :: rest) budget = m0 :: maxBudgetSuffix budget rest ∧
    maxBudgetSuffix budget rest <:+ rest ∧
    tokenSum (maxBudgetSuffix budget rest) ≤ budget ∧
    ∀ S, S <:+ rest → tokenSum S ≤ budget → S <:+ maxBudgetSuffix budget rest := by
  refine ⟨?_, maxBudgetSuffix_suffix budget rest, tokenSum_maxBudgetSuffix_le budget rest,
    maxBudgetSuffix_maximal budget rest⟩
  rw [trim_conversation_eq, if_pos hsys]

/-- Witness for C1 at a concrete input: a zero budget still retains the
system message and drops the (nonzero-cost) user message. -/
theorem trim_conversation_system_spec_witness :
    trim_conversation [⟨"system", "be helpful", none⟩, ⟨"user", "hello there", none⟩] 0 =
      ⟨"system", "be helpful", none⟩ :: maxBudgetSuffix 0 [⟨"user", "hello there", none⟩] :=
  (trim_conversation_system_spec ⟨"system", "be helpful", none⟩
    [⟨"user", "hello there", none⟩] 0 rfl).1

/-- C5: trimming is idempotent — re-trimming an already-trimmed history
under the same budget returns it unchanged. -/
theorem trim_conversation_idempotent (m : List Msg) (b : Nat) :
    trim_conversation (trim_conversation m b) b = trim_conversation m b := by
  cases m with
  | nil => rfl
  | cons m0 rest =>
    rw [trim_conversation_eq]
    by_cases hsys : m0.role = "system"
    · rw [if_pos hsys, trim_conversation_eq, if_pos hsys,
        maxBudgetSuffix_of_le b _ (tokenSum_maxBudgetSuffix_le b rest)]
    · rw [if_neg hsys]
      have hle := tokenSum_maxBudgetSuffix_le b (m0 :: rest)
      cases hS : maxBudgetSuffix b (m0 :: rest) with
      | nil => rfl
      | cons s0 t =>
        rw [hS] at hle
        have htail : tokenSum t ≤ b := by
          rw [tokenSum_cons] at hle; omega
        rw [trim_conversation_eq]
        by_cases hs0 : s0.role = "system"
        · rw [if_pos hs0, maxBudgetSuffix_of_le b t htail]
        · rw [if_neg hs0, maxBudgetSuffix_of_le b _ hle]

/-! ## String-keyed dictionaries

`app.py` keeps two module-level Python dicts, `sessions` and
`request_status`.  A dict is modelled as an association list holding at
most one entry per key; deletion (`del d[k]`) removes every entry with
the key, and update (`d[k] = v`) replaces it at the front, which is what
`List.lookup` observes first. -/

/-- `del d[k]` on a string-keyed dict. -/
def dictErase {β : Type} (k : String) (m : List (String × β)) : List (String × β) :=
  m.filter fun p => p.1 != k

/-- `d[k] = v` on a string-keyed dict. -/
def dictSet {β : Type} (k : String) (v : β) (m : List (String × β)) : List (String × β) :=
  (k, v) :: dictErase k m

theorem lookup_dictSet_self {β : Type} (k : String) (v : β) (m : List (String × β)) :
    List.lookup k (dictSet k v m) = some v := by
  simp [dictSet, List.lookup_cons]

theorem lookup_dictErase_self {β : Type} (k : String) (m : List (String × β)) :
    List.lookup k (dictErase k m) = none := by
  induction m with
  | nil => rfl
  | cons p t ih =>
    obtain ⟨a, v⟩ := p
    by_cases h : a = k
    · have h1 : (a != k) = false := by simp [h]
      simpa [dictErase, List.filter_cons, h1] using ih
    · have h1 : (a != k) = true := by simp [h]
      have h2 : (k == a) = false := by simp [Ne.symm h]
      simpa [dictErase, List.filter_cons, h1, List.lookup_cons, h2] using ih

theorem lookup_dictErase_ne {β : Type} {a b : String} (m : List (String × β)) (h : a ≠ b) :
    List.lookup b (dictErase a m) = List.lookup b m := by
  induction m with
  | nil => rfl
  | cons p t ih =>
    obtain ⟨k, v⟩ := p
    by_cases hk : k = a
    · have h1 : (k != a) = false := by simp [hk]
      have h2 : (b == k) = false := by
        simp only [hk]
        exact beq_false_of_ne (Ne.symm h)
      simpa [dictErase, List.filter_cons, h1, List.lookup_cons, h2] using ih
    · have h1 : (k != a) = true := by simp [hk]
      simp only [dictErase, List.filter_cons, h1, if_pos]
      rw [List.lookup_cons, List.lookup_cons]
      cases hbk : (b == k) with
      | true => rfl
      | false => simpa [dictErase] using ih

/-! ## Session store (`app.py`: `sessions`, `get_session_history`,
`clear_session`)

The `lru_cache` wrapper on `get_session_history` is invalidated
(`cache_clear`) on every write, so the cached function always returns the
same value as the uncached body; the model is that body. -/

/-- The in-memory `sessions` dict: session id to message list. -/
abbrev Sessions := List (String × List Msg)

/-- `get_session_history` from `app.py`: `sessions.get(session_id, []).copy()`. -/
def get_session_history (session_id : String) (s : Sessions) : List Msg :=
  (List.lookup session_id s).getD []

/-- `clear_session` from `app.py`: delete the session if present,
returning whether it existed, together with the resulting store. -/
def clear_session (session_id : String) (s : Sessions) : Bool × Sessions :=
  if (List.lookup session_id s).isSome then (true, dictErase session_id s)
  else (false, s)

/-- C10: clearing one session never affects any other session — for
distinct ids A and B, after `clear_session A` both the history returned
by `get_session_history B` and the store entry for B are exactly what
they were before the call. -/
theorem clear_session_frame (A B : String) (s : Sessions) (hAB : A ≠ B) :
    get_session_history B (clear_session A s).2 = get_session_history B s ∧
    List.lookup B (clear_session A s).2 = List.lookup B s := by
  unfold clear_session
  by_cases h : (List.lookup A s).isSome
  · simp only [h, if_pos]
    exact ⟨by simp [get_session_history, lookup_dictErase_ne s hAB],
      lookup_dictErase_ne s hAB⟩
  · simp only [h]
    exact ⟨rfl, rfl⟩

/-- Witness for C10 at a concrete store: clearing "alice" leaves
"bob"'s history intact. -/
theorem clear_session_frame_witness :
    get_session_history "bob"
        (clear_session "alice"
          [("alice", [⟨"user", "hi", none⟩]), ("bob", [⟨"user", "hello", none⟩])]).2 =
      get_session_history "bob"
        [("alice", [⟨"user", "hi", none⟩]), ("bob", [⟨"user", "hello", none⟩])] :=
  (clear_session_frame "alice" "bob"
    [("alice", [⟨"user", "hi", none⟩]), ("bob", [⟨"user", "hello", none⟩])]
    (by decide)).1

/-! ## Request status tracking (`app.py`: `request_status`,
`/chat` background task, `GET /status/{session_id}`) -/

/-- One entry of the `request_status` dict. -/
structure RequestStatus where
  status : String
  timestamp : Nat
  response : Option String := none
  error : Option String := none
deriving Repr, DecidableEq

abbrev StatusMap := List (String × RequestStatus)

/-- The `/chat` endpoint records `{"status": "processing", "timestamp":
now, "response": None}` before scheduling the background task. -/
def chatAccept (m : StatusMap) (session_id : String) (now : Nat) : StatusMap :=
  dictSet session_id ⟨"processing", now, none, none⟩ m

/-- `process_and_update` from `app.py`: the background task either
completes with a response or fails; on failure it stores `"error":
str(e)` — the stringified exception — in the status entry. -/
def processAndUpdate (m : StatusMap) (session_id : String) (now : Nat)
    (result : Except String String) : StatusMap :=
  match List.lookup session_id m with
  | none => m
  | some st =>
    match result with
    | .ok content =>
        dictSet session_id
          { st with status := "completed", timestamp := now, response := some content } m
    | .error e =>
        dictSet session_id
          { st with status := "failed", timestamp := now, error := some e } m

/-- `get_request_status` from `app.py` (`GET /status/{session_id}`):
returns the stored status verbatim, deleting it first when it is
terminal and older than 300 seconds; unknown ids give `not_found`. -/
def get_request_status (m : StatusMap) (now : Nat) (session_id : String) :
    RequestStatus × StatusMap :=
  match List.lookup session_id m with
  | none => (⟨"not_found", now, none, none⟩, m)
  | some st =>
    if (st.status = "completed" ∨ st.status = "failed") ∧ 300 < now - st.timestamp then
      (st, dictErase session_id m)
    else (st, m)

/-- C6 counterexample: when background processing fails with a
provider-specific exception message, `GET /status/{session_id}` returns
that exact message text in the `error` field — not a generic user-safe
message.  The claim that the underlying exception text never reaches the
caller is therefore false. -/
theorem status_error_passthrough_cex :
    ((get_request_status
        (processAndUpdate (chatAccept [] "s1" 0) "s1" 1
          (Except.error "Mistral provider error: 401 Unauthorized"))
        2 "s1").1).error = some "Mistral provider error: 401 Unauthorized" := by
  rfl

/-- C6 amended: for every session and every exception message, the
`error` field surfaced by `GET /status/{session_id}` after a failed
background run is exactly the stringified exception (`str(e)`), with
status `"failed"`; no stack trace is added, but the exception's own
message text does reach the caller. -/
theorem status_error_is_exception_text (m : StatusMap) (session_id : String)
    (t0 t1 now : Nat) (excMsg : String) :
    ((get_request_status
        (processAndUpdate (chatAccept m session_id t0) session_id t1
          (Except.error excMsg)) now session_id).1).error = some excMsg ∧
    ((get_request_status
        (processAndUpdate (chatAccept m session_id t0) session_id t1
          (Except.error excMsg)) now session_id).1).status = "failed" := by
  have h1 : List.lookup session_id (chatAccept m session_id t0) =
      some ⟨"processing", t0, none, none⟩ := lookup_dictSet_self _ _ _
  have h2 : processAndUpdate (chatAccept m session_id t0) session_id t1
      (Except.error excMsg) =
      dictSet session_id ⟨"failed", t1, none, some excMsg⟩ (chatAccept m session_id t0) := by
    unfold processAndUpdate
    rw [h1]
  rw [h2]
  simp only [get_request_status, lookup_dictSet_self]
  split_ifs <;> exact ⟨rfl, rfl⟩

/-- C9: a status lookup that finds a terminal entry older than 300
seconds removes the entry while still returning the removed payload in
that same response, and any immediately following lookup for the same
session id reports `not_found`. -/
theorem status_cleanup_after_terminal (m : StatusMap) (session_id : String)
    (st : RequestStatus) (now now2 : Nat)
    (hlook : List.lookup session_id m = some st)
    (hterm : st.status = "completed" ∨ st.status = "failed")
    (hold : 300 < now - st.timestamp) :
    get_request_status m now session_id = (st, dictErase session_id m) ∧
    ((get_request_status (dictErase session_id m) now2 session_id).1).status =
      "not_found" := by
  constructor
  · simp only [get_request_status, hlook]
    rw [if_pos ⟨hterm, hold⟩]
  · simp only [get_request_status, lookup_dictErase_self]

/-- Witness for C9 at a concrete store: a completed entry from time 0
queried at time 301 is returned once and gone on the next query. -/
theorem status_cleanup_after_terminal_witness :
    get_request_status [("s1", ⟨"completed", 0, some "answer", none⟩)] 301 "s1" =
      (⟨"completed", 0, some "answer", none⟩,
        dictErase "s1" [("s1", ⟨"completed", 0, some "answer", none⟩)]) ∧
    ((get_request_status
        (dictErase "s1" [("s1", ⟨"completed", 0, some "answer", none⟩)]) 302 "s1").1).status =
      "not_found" :=
  status_cleanup_after_terminal
    [("s1", ⟨"completed", 0, some "answer", none⟩)] "s1"
    ⟨"completed", 0, some "answer", none⟩ 301 302 rfl (Or.inl rfl) (by decide)

/-! ## Batch summarization (`tools/summarization_tool.py`,
`SummarizationTool.summarize_urls`)

The method submits `self(url)` for every url to a bounded
`ThreadPoolExecutor` and writes each future's result into `results[idx]`
for the url's own index, so the observable behaviour is a per-url result
function applied position-wise.  `self(url)` is modelled as a function
returning `Except`: `.ok` for a normal return and `.error` for a raised
exception (which the loop turns into a `{"url": ..., "error": ...}`
entry). -/

/-- One entry of the list returned by `summarize_urls`. -/
inductive SummaryResult where
  | ok (summary : String)
  | err (url : String) (msg : String)
deriving Repr, DecidableEq

/-- The body of the `as_completed` loop for one url: `future.result()`
on success, `{"url": urls[idx], "error": str(e)}` on exception. -/
def summarizeStep (call : String → Except String String) (url : String) : SummaryResult :=
  match call url with
  | .ok s => .ok s
  | .error e => .err url e

/-- `summarize_urls` from `tools/summarization_tool.py`. -/
def summarize_urls (call : String → Except String String) (urls : List String) :
    List SummaryResult :=
  urls.map (summarizeStep call)

/-- C7: `summarize_urls` returns exactly one result per input url, the
result at index i being the summarization result for `urls[i]`; a url
whose processing raises produces an error entry carrying that url at its
own position and leaves every other position exactly the per-url result
of its own url. -/
theorem summarize_urls_spec (call : String → Except String String) (urls : List String) :
    (summarize_urls call urls).length = urls.length ∧
    (∀ i : Nat, (summarize_urls call urls)[i]? = (urls[i]?).map (summarizeStep call)) ∧
    (∀ i : Nat, ∀ u e, urls[i]? = some u → call u = Except.error e →
      (summarize_urls call urls)[i]? = some (SummaryResult.err u e)) := by
  refine ⟨by simp [summarize_urls], ?_, ?_⟩
  · intro i
    simp [summarize_urls, List.getElem?_map]
  · intro i u e hu hc
    simp [summarize_urls, List.getElem?_map, hu, summarizeStep, hc]

/-! ## Session listing (`app.py`, `GET /sessions` / `list_sessions`) -/

/-- `msg.get("timestamp", 0)`. -/
def msgTimestamp (m : Msg) : Nat :=
  m.timestamp.getD 0

/-- `max(timestamps)` over the (non-empty) message list of a session;
`0` for an empty list, as in `last_activity = max(timestamps) if
timestamps else 0`. -/
def lastActivityOf (msgs : List Msg) : Nat :=
  (msgs.map msgTimestamp).foldr max 0

/-- One entry of the `GET /sessions` response. -/
structure SessionInfo where
  session_id : String
  message_count : Nat
  last_activity : Nat
deriving Repr, DecidableEq

/-- The body of the `for sid, messages in sessions.items()` loop of
`list_sessions`: non-empty sessions whose last activity is within the
last 24 hours (86400 seconds) yield an entry, the rest yield none. -/
def sessionEntry (now : Nat) (p : String × List Msg) : Option SessionInfo :=
  if p.2.isEmpty then none
  else if now - lastActivityOf p.2 < 86400 then
    some ⟨p.1, p.2.length, lastActivityOf p.2⟩
  else none

/-- `list_sessions` from `app.py`: collect the qualifying sessions and
sort them by `last_activity`, most recent first (`sorted(...,
reverse=True)`, modelled by a stable insertion sort). -/
def list_sessions (now : Nat) (sessions : Sessions) : List SessionInfo :=
  List.insertionSort (fun a b => b.last_activity ≤ a.last_activity)
    (sessions.filterMap (sessionEntry now))

theorem sessionEntry_eq_some (now : Nat) (p : String × List Msg) (e : SessionInfo) :
    sessionEntry now p = some e ↔
      p.2 ≠ [] ∧ now - lastActivityOf p.2 < 86400 ∧
        e = ⟨p.1, p.2.length, lastActivityOf p.2⟩ := by
  unfold sessionEntry
  by_cases h0 : p.2.isEmpty
  · simp [h0, List.isEmpty_iff.1 h0]
  · have hne : p.2 ≠ [] := by simpa [List.isEmpty_iff] using h0
    by_cases h1 : now - lastActivityOf p.2 < 86400
    · simp [h0, h1, hne, eq_comm]
    · simp [h0, h1, hne]

/-- C8: `GET /sessions` returns exactly the non-empty sessions whose
last activity (the maximum timestamp carried by their messages) is
within the past 24 hours — as a list sorted by last activity, most
recent first, each entry carrying the session id, the message count and
the last-activity time. -/
theorem list_sessions_spec (now : Nat) (sessions : Sessions) :
    List.Perm (list_sessions now sessions) (sessions.filterMap (sessionEntry now)) ∧
    List.Sorted (fun a b : SessionInfo => b.last_activity ≤ a.last_activity)
      (list_sessions now sessions) ∧
    ∀ e : SessionInfo, e ∈ list_sessions now sessions ↔
      ∃ p ∈ sessions, p.2 ≠ [] ∧ now - lastActivityOf p.2 < 86400 ∧
        e = ⟨p.1, p.2.length, lastActivityOf p.2⟩ := by
  refine ⟨List.perm_insertionSort _ _, ?_, ?_⟩
  · haveI : IsTotal SessionInfo (fun a b => b.last_activity ≤ a.last_activity) :=
      ⟨fun a b => Nat.le_total b.last_activity a.last_activity⟩
    haveI : IsTrans SessionInfo (fun a b => b.last_activity ≤ a.last_activity) :=
      ⟨fun _ _ _ h1 h2 => Nat.le_trans h2 h1⟩
    exact List.sorted_insertionSort _ _
  · intro e
    rw [list_sessions, List.mem_insertionSort, List.mem_filterMap]
    constructor
    · rintro ⟨p, hp, hsome⟩
      exact ⟨p, hp, (sessionEntry_eq_some now p e).1 hsome⟩
    · rintro ⟨p, hp, hcond⟩
      exact ⟨p, hp, (sessionEntry_eq_some now p e).2 hcond⟩

/-! ## Online search tool (`tools/online_search_tool.py`)

`OnlineSearchTool.__call__` is modelled along its non-exceptional path:
the Tavily backend is a function `search` from query strings to raw
result lists, page fetching plus content extraction is a function
`fetch` from a URL to the extracted text, the file cache is an
association list from the query string to the write time and the stored
results (the MD5 key is injective on queries, so the query itself serves
as the key), and `time.time()` is an explicit parameter.  The number of
`search_tool.invoke` calls performed is returned alongside the output so
that network traffic can be stated. -/

/-- One raw search result: a dict that may or may not carry a `url` key. -/
structure RawResult where
  url : Option String
deriving Repr, DecidableEq

/-- Substring test on lists of characters, for `"pat" in s`. -/
def charsContains (hay pat : List Char) : Bool :=
  match hay with
  | [] => pat.isEmpty
  | _ :: t => pat.isPrefixOf hay || charsContains t pat

/-- Python's `pat in s`. -/
def containsSubstring (s pat : String) : Bool :=
  charsContains s.toList pat.toList

/-- Python's `s.lower()` (ASCII case mapping, applied character-wise). -/
def pyLower (s : String) : String :=
  ⟨s.data.map Char.toLower⟩

/-- The domain allow-list check of `process_results`:
`any(domain in url.lower() for domain in ['.gov.in', '.nic.in'])`. -/
def allowListed (url : String) : Bool :=
  containsSubstring (pyLower url) ".gov.in" || containsSubstring (pyLower url) ".nic.in"

/-- A processed result of `process_results`: `{"url": url, "content": text}`. -/
structure ProcResult where
  url : String
  content : String
deriving Repr, DecidableEq

/-- `OnlineSearchTool.process_results`: keep exactly the results that
carry a `url` key whose url passes the allow-list, fetching the page
content for each kept url (the `try`/`except` around the fetch always
produces some text, here `fetch url`). -/
def process_results (fetch : String → String) (result_list : List RawResult) :
    List ProcResult :=
  result_list.filterMap fun r =>
    match r.url with
    | some url => if allowListed url then some ⟨url, fetch url⟩ else none
    | none => none

/-- One entry of the value returned by `OnlineSearchTool.__call__`:
either `{"url": processed}` (the code wraps each processed dict under a
`"url"` key) or `{"error": msg}`. -/
inductive SearchOutput where
  | urlEntry (p : ProcResult)
  | errorEntry (msg : String)
deriving Repr, DecidableEq

/-- The url carried by an output entry, when it carries one. -/
def SearchOutput.carriedUrl : SearchOutput → Option String
  | .urlEntry p => some p.url
  | .errorEntry _ => none

/-- The search cache: query string to (file mtime, stored results). -/
abbrev SearchCache := List (String × Nat × List SearchOutput)

/-- `OnlineSearchTool.get_cached_results`: return the stored results when
the cache file exists and is younger than 3600 seconds. -/
def get_cached_results (cache : SearchCache) (now : Nat) (query : String) :
    Option (List SearchOutput) :=
  match List.lookup query cache with
  | some (t, r) => if now - t < 3600 then some r else none
  | none => none

/-- `OnlineSearchTool.cache_results`: write the results under the query's
key with the current time (a later lookup sees the newest entry). -/
def cache_results (cache : SearchCache) (now : Nat) (query : String)
    (results : List SearchOutput) : SearchCache :=
  (query, now, results) :: cache

/-- The error entry returned when no relevant documents are found. -/
def noResultsMsg : String :=
  "No relevant legal documents found. Would you like to provide more details about your situation?"

/-- The first retry reformulation (`attempt == 0`). -/
def reformulateSiteFilter (query : String) : String :=
  "site:gov.in OR site:nic.in " ++ query

/-- Python's `query.split()`: split on whitespace, dropping empty parts. -/
def pySplitWhitespace (query : String) : List String :=
  (query.split Char.isWhitespace).filter (fun s => s ≠ "")

/-- The second retry reformulation (`attempt == 1`):
`" ".join(query.split()[:3]) + " site:gov.in"`. -/
def reformulateFirstWords (query : String) : String :=
  String.intercalate " " ((pySplitWhitespace query).take 3) ++ " site:gov.in"

/-- `final_results = [{"url": url} for url in urls[:3]]`. -/
def finalResults (urls : List ProcResult) : List SearchOutput :=
  (urls.take 3).map SearchOutput.urlEntry

/-- Result of one `__call__`: the returned list, the cache afterwards,
and how many times `search_tool.invoke` ran. -/
structure CallResult where
  output : List SearchOutput
  cache : SearchCache
  networkCalls : Nat
deriving Repr, DecidableEq

/-- The `attempt == 2` iteration of the retry loop of `__call__`. -/
def callAttempt2 (search : String → List RawResult) (fetch : String → String)
    (cache : SearchCache) (now : Nat) (query : String) (calls : Nat) : CallResult :=
  let urls := process_results fetch (search query)
  if urls.isEmpty then ⟨[SearchOutput.errorEntry noResultsMsg], cache, calls + 1⟩
  else ⟨finalResults urls, cache_results cache now query (finalResults urls), calls + 1⟩

/-- The `attempt == 1` iteration of the retry loop of `__call__`. -/
def callAttempt1 (search : String → List RawResult) (fetch : String → String)
    (cache : SearchCache) (now : Nat) (query : String) (calls : Nat) : CallResult :=
  let urls := process_results fetch (search query)
  if urls.isEmpty then
    callAttempt2 search fetch cache now (reformulateFirstWords query) (calls + 1)
  else ⟨finalResults urls, cache_results cache now query (finalResults urls), calls + 1⟩

/-- The `attempt == 0` iteration of the retry loop of `__call__`. -/
def callAttempt0 (search : String → List RawResult) (fetch : String → String)
    (cache : SearchCache) (now : Nat) (query : String) (calls : Nat) : CallResult :=
  let urls := process_results fetch (search query)
  if urls.isEmpty then
    callAttempt1 search fetch cache now (reformulateSiteFilter query) (calls + 1)
  else ⟨finalResults urls, cache_results cache now query (finalResults urls), calls + 1⟩

/-- `OnlineSearchTool.__call__`: serve fresh cached results without any
network call, otherwise run up to three search attempts with query
reformulation between them, caching a successful non-empty result set
under the query used by the successful attempt. -/
def onlineSearchCall (search : String → List RawResult) (fetch : String → String)
    (cache : SearchCache) (now : Nat) (query : String) : CallResult :=
  match get_cached_results cache now query with
  | some r => ⟨r, cache, 0⟩
  | none => callAttempt0 search fetch cache now query 0

/-- All urls carried by a list of output entries pass the allow-list. -/
def outputAllowListed (outs : List SearchOutput) : Prop :=
  ∀ o ∈ outs, ∀ u, o.carriedUrl = some u → allowListed u = true

/-- Every result list stored in the cache carries only allow-listed
urls (maintained by the tool, which caches only filtered results). -/
def cacheAllowListed (cache : SearchCache) : Prop :=
  ∀ e ∈ cache, outputAllowListed e.2.2

theorem lookup_mem {β : Type} {k : String} {v : β} {m : List (String × β)}
    (h : List.lookup k m = some v) : (k, v) ∈ m := by
  induction m with
  | nil => cases h
  | cons p t ih =>
    obtain ⟨a, b⟩ := p
    rw [List.lookup_cons] at h
    cases hk : (k == a) with
    | true =>
      rw [hk] at h
      injection h with h
      subst h
      have : k = a := by simpa using hk
      subst this
      exact List.mem_cons_self _ _
    | false =>
      rw [hk] at h
      exact List.mem_cons_of_mem _ (ih h)

theorem process_results_allowListed (fetch : String → String)
    (result_list : List RawResult) :
    ∀ p ∈ process_results fetch result_list, allowListed p.url = true := by
  intro p hp
  rw [process_results, List.mem_filterMap] at hp
  obtain ⟨r, _, hr⟩ := hp
  cases hu : r.url with
  | none => simp [hu] at hr
  | some url =>
    simp only [hu] at hr
    by_cases ha : allowListed url = true
    · rw [if_pos ha] at hr
      injection hr with h
      rw [← h]
      exact ha
    · rw [if_neg ha] at hr; cases hr

theorem finalResults_allowListed (fetch : String → String) (rs : List RawResult) :
    outputAllowListed (finalResults (process_results fetch rs)) := by
  intro o ho u hu
  rw [finalResults, List.mem_map] at ho
  obtain ⟨p, hp, rfl⟩ := ho
  have hp2 : p ∈ process_results fetch rs := List.mem_of_mem_take hp
  simp only [SearchOutput.carriedUrl] at hu
  cases hu
  exact process_results_allowListed fetch rs p hp2

theorem errorOutput_allowListed (msg : String) :
    outputAllowListed [SearchOutput.errorEntry msg] := by
  intro o ho u hu
  simp only [List.mem_singleton] at ho
  subst ho
  simp [SearchOutput.carriedUrl] at hu

theorem cache_results_allowListed (cache : SearchCache) (now : Nat) (query : String)
    (results : List SearchOutput) (hc : cacheAllowListed cache)
    (hr : outputAllowListed results) :
    cacheAllowListed (cache_results cache now query results) := by
  intro e he
  rw [cache_results, List.mem_cons] at he
  rcases he with rfl | he
  · exact hr
  · exact hc e he

theorem get_cached_results_allowListed (cache : SearchCache) (now : Nat) (query : String)
    (r : List SearchOutput) (hc : cacheAllowListed cache)
    (h : get_cached_results cache now query = some r) :
    outputAllowListed r := by
  unfold get_cached_results at h
  cases hl : List.lookup query cache with
  | none => rw [hl] at h; cases h
  | some tr =>
    obtain ⟨t, stored⟩ := tr
    simp only [hl] at h
    have hmem : (query, (t, stored)) ∈ cache := lookup_mem hl
    by_cases hf : now - t < 3600
    · rw [if_pos hf] at h
      injection h with h
      exact h ▸ hc (query, (t, stored)) hmem
    · rw [if_neg hf] at h; cases h

theorem callAttempt2_allowListed (search : String → List RawResult)
    (fetch : String → String) (cache : SearchCache) (now : Nat) (query : String)
    (calls : Nat) (hc : cacheAllowListed cache) :
    outputAllowListed (callAttempt2 search fetch cache now query calls).output ∧
    cacheAllowListed (callAttempt2 search fetch cache now query calls).cache := by
  unfold callAttempt2
  by_cases h : (process_results fetch (search query)).isEmpty
  · simp only [h, if_pos]
    exact ⟨errorOutput_allowListed _, hc⟩
  · simp only [h, if_neg, Bool.false_eq_true, not_false_iff]
    exact ⟨finalResults_allowListed fetch _,
      cache_results_allowListed _ _ _ _ hc (finalResults_allowListed fetch _)⟩

theorem callAttempt1_allowListed (search : String → List RawResult)
    (fetch : String → String) (cache : SearchCache) (now : Nat) (query : String)
    (calls : Nat) (hc : cacheAllowListed cache) :
    outputAllowListed (callAttempt1 search fetch cache now query calls).output ∧
    cacheAllowListed (callAttempt1 search fetch cache now query calls).cache := by
  unfold callAttempt1
  by_cases h : (process_results fetch (search query)).isEmpty
  · simp only [h, if_pos]
    exact callAttempt2_allowListed search fetch cache now _ _ hc
  · simp only [h, if_neg, Bool.false_eq_true, not_false_iff]
    exact ⟨finalResults_allowListed fetch _,
      cache_results_allowListed _ _ _ _ hc (finalResults_allowListed fetch _)⟩

theorem callAttempt0_allowListed (search : String → List RawResult)
    (fetch : String → String) (cache : SearchCache) (now : Nat) (query : String)
    (calls : Nat) (hc : cacheAllowListed cache) :
    outputAllowListed (callAttempt0 search fetch cache now query calls).output ∧
    cacheAllowListed (callAttempt0 search fetch cache now query calls).cache := by
  unfold callAttempt0
  by_cases h : (process_results fetch (search query)).isEmpty
  · simp only [h, if_pos]
    exact callAttempt1_allowListed search fetch cache now _ _ hc
  · simp only [h, if_neg, Bool.false_eq_true, not_false_iff]
    exact ⟨finalResults_allowListed fetch _,
      cache_results_allowListed _ _ _ _ hc (finalResults_allowListed fetch _)⟩

/-- C2: whenever the cache contains only allow-listed urls (as every
cache the tool itself writes does), every entry returned by
`OnlineSearchTool.__call__` that carries a url carries one inside the
allow-list (`.gov.in` or `.nic.in`, checked case-insensitively on the
lowercased url), and the cache it leaves behind again contains only
allow-listed urls; out-of-allow-list result urls are discarded by
`process_results`, so a backend returning only such urls contributes no
url-carrying entry at all. -/
theorem onlineSearch_allowlist (search : String → List RawResult)
    (fetch : String → String) (cache : SearchCache) (now : Nat) (query : String)
    (hc : cacheAllowListed cache) :
    outputAllowListed (onlineSearchCall search fetch cache now query).output ∧
    cacheAllowListed (onlineSearchCall search fetch cache now query).cache := by
  unfold onlineSearchCall
  cases hcr : get_cached_results cache now query with
  | some r =>
    exact ⟨get_cached_results_allowListed cache now query r hc hcr, hc⟩
  | none =>
    exact callAttempt0_allowListed search fetch cache now query 0 hc

/-- Witness for C2 at a concrete input: a backend returning one
allow-listed and one out-of-allow-list url, starting from an empty
cache. -/
theorem onlineSearch_allowlist_witness :
    outputAllowListed
      (onlineSearchCall
        (fun _ => [⟨some "https://india.gov.in/doc"⟩, ⟨some "https://example.com/doc"⟩])
        (fun _ => "page text") [] 0 "land dispute").output ∧
    cacheAllowListed
      (onlineSearchCall
        (fun _ => [⟨some "https://india.gov.in/doc"⟩, ⟨some "https://example.com/doc"⟩])
        (fun _ => "page text") [] 0 "land dispute").cache :=
  onlineSearch_allowlist
    (fun _ => [⟨some "https://india.gov.in/doc"⟩, ⟨some "https://example.com/doc"⟩])
    (fun _ => "page text") [] 0 "land dispute" (by intro e he; cases he)

/-- C4 (amended): when the first call misses the cache and the very
first search attempt already yields a non-empty processed result set,
the results are cached under the query, so a second call with the same
query within the 3600-second freshness window returns identical output
and performs no further network call — one network call in total. -/
theorem onlineSearch_cache_roundtrip (search : String → List RawResult)
    (fetch : String → String) (cache : SearchCache) (query : String) (t1 t2 : Nat)
    (hmiss : get_cached_results cache t1 query = none)
    (hsucc : (process_results fetch (search query)).isEmpty = false)
    (hfresh : t2 - t1 < 3600) :
    (onlineSearchCall search fetch
        (onlineSearchCall search fetch cache t1 query).cache t2 query).output =
      (onlineSearchCall search fetch cache t1 query).output ∧
    (onlineSearchCall search fetch cache t1 query).networkCalls = 1 ∧
    (onlineSearchCall search fetch
        (onlineSearchCall search fetch cache t1 query).cache t2 query).networkCalls = 0 := by
  have h1 : onlineSearchCall search fetch cache t1 query =
      ⟨finalResults (process_results fetch (search query)),
        cache_results cache t1 query (finalResults (process_results fetch (search query))),
        1⟩ := by
    unfold onlineSearchCall
    rw [hmiss]
    unfold callAttempt0
    simp only [hsucc, Bool.false_eq_true, if_neg, not_false_iff]
  rw [h1]
  have h2 : get_cached_results
      (cache_results cache t1 query (finalResults (process_results fetch (search query))))
      t2 query =
      some (finalResults (process_results fetch (search query))) := by
    unfold get_cached_results cache_results
    simp only [List.lookup_cons_self]
    rw [if_pos hfresh]
  unfold onlineSearchCall
  simp only [h2]
  exact ⟨trivial, trivial, trivial⟩

/-- Witness for C4's amended theorem at a concrete input. -/
theorem onlineSearch_cache_roundtrip_witness :
    (onlineSearchCall (fun _ => [⟨some "https://india.gov.in/doc"⟩]) (fun _ => "text")
        (onlineSearchCall (fun _ => [⟨some "https://india.gov.in/doc"⟩]) (fun _ => "text")
          [] 0 "land dispute").cache 5 "land dispute").output =
      (onlineSearchCall (fun _ => [⟨some "https://india.gov.in/doc"⟩]) (fun _ => "text")
        [] 0 "land dispute").output ∧
    (onlineSearchCall (fun _ => [⟨some "https://india.gov.in/doc"⟩]) (fun _ => "text")
        [] 0 "land dispute").networkCalls = 1 ∧
    (onlineSearchCall (fun _ => [⟨some "https://india.gov.in/doc"⟩]) (fun _ => "text")
        (onlineSearchCall (fun _ => [⟨some "https://india.gov.in/doc"⟩]) (fun _ => "text")
          [] 0 "land dispute").cache 5 "land dispute").networkCalls = 0 :=
  onlineSearch_cache_roundtrip (fun _ => [⟨some "https://india.gov.in/doc"⟩])
    (fun _ => "text") [] "land dispute" 0 5 rfl (by decide) (by decide)

/-- C4 counterexample: the backend finds nothing for "divorce law" but
finds an allow-listed document for the reformulated query
"site:gov.in OR site:nic.in divorce law".  The first call therefore
succeeds with a non-empty result set only on the second attempt and
caches it under the reformulated query, so a second identical call
within the freshness window misses the cache and searches again: the
two calls together perform four network calls, not one, refuting the
claimed round-trip in the retry-with-reformulation case. -/
theorem onlineSearch_cache_roundtrip_cex :
    (onlineSearchCall
        (fun q => if q = "site:gov.in OR site:nic.in divorce law"
          then [⟨some "https://india.gov.in/doc"⟩] else [])
        (fun _ => "text") [] 0 "divorce law").output =
      [SearchOutput.urlEntry ⟨"https://india.gov.in/doc", "text"⟩] ∧
    get_cached_results
      (onlineSearchCall
        (fun q => if q = "site:gov.in OR site:nic.in divorce law"
          then [⟨some "https://india.gov.in/doc"⟩] else [])
        (fun _ => "text") [] 0 "divorce law").cache 5 "divorce law" = none ∧
    (onlineSearchCall
        (fun q => if q = "site:gov.in OR site:nic.in divorce law"
          then [⟨some "https://india.gov.in/doc"⟩] else [])
        (fun _ => "text")
        (onlineSearchCall
          (fun q => if q = "site:gov.in OR site:nic.in divorce law"
            then [⟨some "https://india.gov.in/doc"⟩] else [])
          (fun _ => "text") [] 0 "divorce law").cache 5 "divorce law").networkCalls = 2 ∧
    (onlineSearchCall
        (fun q => if q = "site:gov.in OR site:nic.in divorce law"
          then [⟨some "https://india.gov.in/doc"⟩] else [])
        (fun _ => "text") [] 0 "divorce law").networkCalls = 2 := by
  refine ⟨?_, ?_, ?_, ?_⟩ <;> rfl

/-! ## Vector search tool (`tools/vector_search_tool.py`,
`search_indian_law_documents`)

The Qdrant backend response (`client.search(...)`) enters the model as
the `hits` parameter, and the output of the regex-based
`parse_metadata_filters` enters as the `search_query` and
`metadata_filters` parameters — both are inputs the function goes on to
process.  Scores are modelled as rationals; the `f"{x:.4f}"` float
formatting is modelled by `formatRat4` (fixed four decimals, round to
nearest), whose last-digit rounding mode is irrelevant to every claim. -/

/-- A payload value: Qdrant payload fields are strings except
`related_sections`, which is a list. -/
inductive PyVal where
  | str (s : String)
  | list (l : List String)
deriving Repr, DecidableEq

/-- Python truthiness of a payload value. -/
def PyVal.truthy : PyVal → Bool
  | .str s => s != ""
  | .list l => !l.isEmpty

/-- Python `str(...)` of a payload value. -/
def pyStr : PyVal → String
  | .str s => s
  | .list l => "[" ++ String.intercalate ", " (l.map (fun x => "\x27" ++ x ++ "\x27")) ++ "]"

abbrev Payload := List (String × PyVal)

def payloadGet (p : Payload) (k : String) : Option PyVal :=
  List.lookup k p

/-- A chain of Python `or`s over `payload.get(...)` calls, ending in `''`. -/
def pyOrChain : List (Option PyVal) → PyVal
  | [] => .str ""
  | o :: rest =>
    match o with
    | some v => if v.truthy then v else pyOrChain rest
    | none => pyOrChain rest

/-- `payload.get('section_desc') or payload.get('section_title') or
payload.get('title') or payload.get('text') or ''`, stringified. -/
def contentOf (p : Payload) : String :=
  pyStr (pyOrChain [payloadGet p "section_desc", payloadGet p "section_title",
    payloadGet p "title", payloadGet p "text"])

/-- One Qdrant `ScoredPoint`. -/
structure ScoredPoint where
  payload : Payload
  score : ℚ
deriving Repr, DecidableEq

/-- The `DummyDoc` wrapper built for each hit. -/
structure DummyDoc where
  metadata : Payload
  page_content : String
deriving Repr, DecidableEq

def mkDummyDoc (p : Payload) : DummyDoc :=
  ⟨p, contentOf p⟩

/-- Pad a digit string to four characters with leading zeros. -/
def padZeros4 (s : String) : String :=
  String.mk (List.replicate (4 - s.length) '0') ++ s

/-- `f"{x:.4f}"`: fixed-point with four decimals. -/
def formatRat4 (x : ℚ) : String :=
  let n : Int := round (x * 10000)
  let sign := if n < 0 then "-" else ""
  let a := n.natAbs
  sign ++ toString (a / 10000) ++ "." ++ padZeros4 (toString (a % 10000))

/-- Python's `str.title()` over ASCII. -/
def titleChars : Bool → List Char → List Char
  | _, [] => []
  | prevAlpha, c :: cs =>
    let c2 := if c.isAlpha then (if prevAlpha then c.toLower else c.toUpper) else c
    c2 :: titleChars c.isAlpha cs

def pyTitle (s : String) : String :=
  ⟨titleChars false s.data⟩

/-- Index of the last '.' in a character list (`content[:1500].rfind('.')`). -/
def lastDotIdx (l : List Char) : Option Nat :=
  match l.reverse.findIdx? (fun c => c == '.') with
  | some j => some (l.length - 1 - j)
  | none => none

/-- The content truncation of the per-document formatting: cut after the
last sentence boundary within the first 1500 characters. -/
def truncateContent (content : String) : String :=
  if content.length > 1500 then
    let tp := match lastDotIdx (content.data.take 1500) with
      | some i => i
      | none => 1500
    String.mk (content.data.take (tp + 1)) ++ "... [Content truncated]"
  else content

/-- Keep first occurrences (Python dict/set insertion behaviour). -/
def firstDedup (l : List String) : List String :=
  l.foldl (fun acc k => if acc.contains k then acc else acc ++ [k]) []

/-- `sorted(...)` on strings, ascending. -/
def sortStrings (l : List String) : List String :=
  List.insertionSort (fun a b : String => ¬ b < a) l

/-- The `--- DOCUMENT i ---` block of the formatted output. -/
def docBlock (i : Nat) (doc : DummyDoc) (score : ℚ) : List String :=
  let metadataStrs := (doc.metadata.filter (fun kv => kv.1 != "" && kv.2.truthy)).map
    (fun kv => pyTitle kv.1 ++ ": " ++ pyStr kv.2)
  let src := if metadataStrs.isEmpty then [] else
    ["Source: " ++ String.intercalate " | " metadataStrs]
  let content0 := doc.page_content.trim
  let sdesc := match payloadGet doc.metadata "section_desc" with
    | some v => pyStr v
    | none => ""
  let sdescLines := if sdesc != "" then ["Section Description:\n" ++ sdesc] else []
  let rel := match payloadGet doc.metadata "related_sections" with
    | some (.list l) => l
    | _ => []
  let relLines := if rel.isEmpty then [] else
    ["\nRelated Sections: " ++ String.intercalate ", " rel]
  ["--- DOCUMENT " ++ toString i ++ " ---", "Similarity Score: " ++ formatRat4 score] ++
    src ++ sdescLines ++ ["Content:", truncateContent content0] ++ relLines ++ [""]

/-- `for i, (document, similarity_score) in enumerate(results, 1)`. -/
def docBlocks : Nat → List (DummyDoc × ℚ) → List String
  | _, [] => []
  | i, (d, s) :: rest => docBlock i d s ++ docBlocks (i + 1) rest

/-- The `--- SEARCH SUMMARY ---` section. -/
def summarySection (results : List (DummyDoc × ℚ)) : List String :=
  let l1 := "--- SEARCH SUMMARY ---"
  let l2 := "Total documents found: " ++ toString results.length
  if results.isEmpty then [l1, l2]
  else
    let avg := (results.map (fun dr => dr.2)).sum / (results.length : ℚ)
    let l3 := "Average similarity score: " ++ formatRat4 avg
    let keys := firstDedup (results.flatMap (fun dr => dr.1.metadata.map (fun kv => kv.1)))
    let sumLines := if keys.isEmpty then [] else
      "\nMETADATA SUMMARY:" ::
        keys.map (fun k =>
          let vals := firstDedup (results.flatMap (fun dr =>
            (dr.1.metadata.filter (fun kv => kv.1 == k)).map (fun kv => pyStr kv.2)))
          if vals.length ≤ 5 then
            "- " ++ k ++ ": " ++ String.intercalate ", " (sortStrings vals)
          else
            "- " ++ k ++ ": " ++ toString vals.length ++ " unique values")
    [l1, l2, l3] ++ sumLines

/-- The formatted output built when at least one result survives. -/
def formatOutput (query search_query : String) (metadata_filters : List (String × String))
    (results : List (DummyDoc × ℚ)) : String :=
  let header := ["SEARCH QUERY: " ++ query, "QUERY CONTEXT: " ++ search_query]
  let mf := if metadata_filters.isEmpty then [] else
    "METADATA FILTERS:" :: metadata_filters.map (fun fv => "- " ++ fv.1 ++ ": " ++ fv.2)
  let avg := (results.map (fun dr => dr.2)).sum / (results.length : ℚ)
  let top := (results.headD (⟨[], ""⟩, 0)).2
  let stats := ["\nSEARCH STATISTICS:",
    "- Total matches found: " ++ toString results.length,
    "- Average relevance score: " ++ formatRat4 avg,
    "- Top relevance score: " ++ formatRat4 top]
  let found := ["\nFOUND " ++ toString results.length ++ " RELEVANT LEGAL DOCUMENTS:\n"]
  String.intercalate "\n"
    (header ++ mf ++ stats ++ found ++ docBlocks 1 results ++ summarySection results)

/-- The sentinel string returned when no documents survive. -/
def noResultsMessage (query : String) : String :=
  "No relevant legal documents found for query: \x27" ++ query ++
    "\x27. Try rephrasing your question or lowering the confidence threshold."

/-- `search_indian_law_documents` from `tools/vector_search_tool.py`:
validate inputs, sort the backend hits by score descending, apply the
confidence-threshold post-filter when the threshold is positive, and
return either the formatted document list or the no-results sentinel.
Every path returns a string; the surrounding `try`/`except` turns any
exception into an error string, so the function never raises. -/
def search_indian_law_documents (query : String) (max_results : Int)
    (confidence_threshold : ℚ) (search_query : String)
    (metadata_filters : List (String × String)) (hits : List ScoredPoint) : String :=
  if query = "" then "Error: Query must be a non-empty string."
  else
    let _mr : Int := if max_results < 1 ∨ 10 < max_results then 5 else max_results
    let ct : ℚ := if confidence_threshold < 0 ∨ 1 < confidence_threshold then 0
      else confidence_threshold
    let scored := hits.map (fun r => (mkDummyDoc r.payload, r.score))
    let sortedResults := List.insertionSort
      (fun a b : DummyDoc × ℚ => b.2 ≤ a.2) scored
    let results := if 0 < ct then
      sortedResults.filter (fun dr => decide (ct ≤ dr.2))
    else sortedResults
    if results.isEmpty then noResultsMessage query
    else formatOutput query search_query metadata_filters results

/-- C3 counterexample: with zero backend hits the function does not
return an empty sequence — it returns the (non-empty) no-results
sentinel string, a message rather than an empty collection of results. -/
theorem vector_search_zero_hits_cex :
    search_indian_law_documents "property dispute" 5 0 "property dispute" [] [] =
      noResultsMessage "property dispute" ∧
    noResultsMessage "property dispute" ≠ "" := by
  exact ⟨rfl, by decide⟩

/-- C3 amended: for every query on which the backend returns zero hits,
or on which the (validated) confidence threshold is positive and every
hit scores strictly below it, `search_indian_law_documents` returns —
without raising — the no-results sentinel message, which contains zero
formatted documents; the fallback decision is left to the caller. -/
theorem vector_search_no_hits_message (query search_query : String) (max_results : Int)
    (confidence_threshold : ℚ) (metadata_filters : List (String × String))
    (hits : List ScoredPoint)
    (hq : query ≠ "")
    (h : hits = [] ∨
      (0 < (if confidence_threshold < 0 ∨ 1 < confidence_threshold then 0
              else confidence_threshold) ∧
        ∀ r ∈ hits, r.score <
          (if confidence_threshold < 0 ∨ 1 < confidence_threshold then 0
            else confidence_threshold))) :
    search_indian_law_documents query max_results confidence_threshold search_query
      metadata_filters hits = noResultsMessage query := by
  unfold search_indian_law_documents
  rw [if_neg hq]
  rcases h with rfl | ⟨hpos, hbelow⟩
  · simp
  · have hfilter : (List.insertionSort (fun a b : DummyDoc × ℚ => b.2 ≤ a.2)
        (hits.map (fun r => (mkDummyDoc r.payload, r.score)))).filter
        (fun dr => decide ((if confidence_threshold < 0 ∨ 1 < confidence_threshold then 0
          else confidence_threshold) ≤ dr.2)) = [] := by
      rw [List.filter_eq_nil_iff]
      intro dr hdr
      rw [List.mem_insertionSort, List.mem_map] at hdr
      obtain ⟨r, hr, rfl⟩ := hdr
      simpa using not_le.2 (hbelow r hr)
    simp only [hpos, if_true, hfilter, List.isEmpty_nil, ite_true]

/-- Witness for C3's amended theorem at a concrete input: every hit
scores below the threshold 1/2, so the sentinel is returned. -/
theorem vector_search_no_hits_message_witness :
    search_indian_law_documents "bail provisions" 5 (1 / 2) "bail provisions" []
      [⟨[("title", PyVal.str "Bail")], 1 / 4⟩] = noResultsMessage "bail provisions" :=
  vector_search_no_hits_message "bail provisions" "bail provisions" 5 (1 / 2) []
    [⟨[("title", PyVal.str "Bail")], 1 / 4⟩] (by decide)
    (Or.inr ⟨by norm_num, by intro r hr; simp at hr; rw [hr]; norm_num⟩)
